import Mathlib

/- Verification of the stream_ml / stream_mapper probability core.

The Python sources are shallowly embedded: arrays of shape (N,) or (N, 1)
become functions `Fin n → ℝ` (or `ℚ` where every operation is exact and
order-decidable), (N, K) arrays become lists of rows or lists of columns,
and fallible calls return `Except`.  Float values are idealised as real
numbers; the float `-inf` used by the hard-threshold prior is modelled by
an explicit extended-value type. -/

namespace StreamML

/- ================================================================
   Probability protocol (src/src/stream_mapper/core/_core/likelihood_api.py)

   A model implements the four elementwise log operations; everything
   else is mechanically derived exactly as in the Python protocol
   classes: `ln_posterior = ln_likelihood + ln_prior - ln_evidence`,
   the `_tot` variants are `xp.sum` of the elementwise log variants,
   and the direct-probability variants are `xp.exp` of the log
   variants.  The optional `where` mask is threaded through untouched,
   as in the source.
   ================================================================ -/

/-- A model implementing the elementwise log operations of
`LnProbabilities` (`ln_posterior` is derived, so it is not a field). -/
structure LnProbModel (n : ℕ) (P D : Type) where
  ln_likelihood : P → D → Option D → Fin n → ℝ
  ln_prior : P → D → Fin n → ℝ
  ln_evidence : D → Fin n → ℝ

/-- Derived `LnProbabilities.ln_posterior`: likelihood + prior - evidence. -/
def LnProbModel.ln_posterior (M : LnProbModel n P D) (mp : P) (d : D)
    (w : Option D) : Fin n → ℝ :=
  fun i => M.ln_likelihood mp d w i + M.ln_prior mp d i - M.ln_evidence d i

/-- Derived `TotalLnProbabilities.ln_likelihood_tot`: `xp.sum` of the rows. -/
def LnProbModel.ln_likelihood_tot (M : LnProbModel n P D) (mp : P) (d : D)
    (w : Option D) : ℝ :=
  ∑ i, M.ln_likelihood mp d w i

/-- Derived `TotalLnProbabilities.ln_prior_tot`. -/
def LnProbModel.ln_prior_tot (M : LnProbModel n P D) (mp : P) (d : D) : ℝ :=
  ∑ i, M.ln_prior mp d i

/-- Derived `TotalLnProbabilities.ln_evidence_tot`. -/
def LnProbModel.ln_evidence_tot (M : LnProbModel n P D) (d : D) : ℝ :=
  ∑ i, M.ln_evidence d i

/-- Derived `TotalLnProbabilities.ln_posterior_tot`. -/
def LnProbModel.ln_posterior_tot (M : LnProbModel n P D) (mp : P) (d : D)
    (w : Option D) : ℝ :=
  ∑ i, M.ln_posterior mp d w i

/-- Derived `Probabilities.likelihood`: elementwise `xp.exp` of
`ln_likelihood`. -/
noncomputable def LnProbModel.likelihood (M : LnProbModel n P D) (mp : P)
    (d : D) (w : Option D) : Fin n → ℝ :=
  fun i => Real.exp (M.ln_likelihood mp d w i)

/-- Derived `Probabilities.prior`. -/
noncomputable def LnProbModel.prior (M : LnProbModel n P D) (mp : P)
    (d : D) : Fin n → ℝ :=
  fun i => Real.exp (M.ln_prior mp d i)

/-- Derived `Probabilities.evidence`. -/
noncomputable def LnProbModel.evidence (M : LnProbModel n P D) (d : D) :
    Fin n → ℝ :=
  fun i => Real.exp (M.ln_evidence d i)

/-- Derived `Probabilities.posterior`. -/
noncomputable def LnProbModel.posterior (M : LnProbModel n P D) (mp : P)
    (d : D) (w : Option D) : Fin n → ℝ :=
  fun i => Real.exp (M.ln_posterior mp d w i)

/-- Derived `TotalProbabilities.likelihood_tot`: `xp.exp` of
`ln_likelihood_tot` (NOT the sum of the elementwise likelihoods). -/
noncomputable def LnProbModel.likelihood_tot (M : LnProbModel n P D) (mp : P)
    (d : D) (w : Option D) : ℝ :=
  Real.exp (M.ln_likelihood_tot mp d w)

/-- Derived `TotalProbabilities.prior_tot`. -/
noncomputable def LnProbModel.prior_tot (M : LnProbModel n P D) (mp : P)
    (d : D) : ℝ :=
  Real.exp (M.ln_prior_tot mp d)

/-- Derived `TotalProbabilities.evidence_tot`. -/
noncomputable def LnProbModel.evidence_tot (M : LnProbModel n P D) (d : D) :
    ℝ :=
  Real.exp (M.ln_evidence_tot d)

/-- Derived `TotalProbabilities.posterior_tot`. -/
noncomputable def LnProbModel.posterior_tot (M : LnProbModel n P D) (mp : P)
    (d : D) (w : Option D) : ℝ :=
  Real.exp (M.ln_posterior_tot mp d w)

/-- The all-zero model on two rows, used to separate `likelihood_tot`
from the row-sum of elementwise `likelihood`. -/
def zeroModel : LnProbModel 2 Unit Unit where
  ln_likelihood := fun _ _ _ _ => 0
  ln_prior := fun _ _ _ => 0
  ln_evidence := fun _ _ => 0

/- ================================================================
   Parameter container and mixture statistics
   (src/libs/jax/src/stream_ml/jax/mixture.py)
   ================================================================ -/

/-- Modelled from the spec: the `Params` container
(stream_ml.core.params.core is not under src/).  An ordered mapping
from dotted coordinate keys, optionally refined by a parameter name, to
(N,1) array values. -/
structure Params (n : ℕ) where
  entries : List ((String × Option String) × (Fin n → ℝ))

/-- Modelled from the spec: `Params.get_prefixed`
(stream_ml.core.params.core is not under src/): returns the sub-mapping
of all entries whose coordinate key begins with `name.`, with that
prefix stripped and all other structure preserved; entries not matching
the prefix are excluded. -/
def Params.get_prefixed (p : Params n) (name : String) : Params n :=
  ⟨p.entries.filterMap fun e =>
    if (name ++ ".").isPrefixOf e.1.1 then
      some ((e.1.1.drop (name.length + 1), e.1.2), e.2)
    else none⟩

/-- The part of the mixture model that a prior plugin consults when it
is handed `self` (the model's flattened parameter-name index). -/
structure ModelView where
  param_names_flat : List String

/-- A child model of the mixture: its elementwise log-likelihood and
log-prior, each producing one (N,1) column. -/
structure ChildModel (n : ℕ) (D : Type) where
  ln_likelihood_arr : Params n → D → Fin n → ℝ
  ln_prior_arr : Params n → D → Fin n → ℝ

/-- A prior plugin's `logpdf` entry point as called by
`MixtureModel.ln_prior_arr`: it receives the parameters, the data, the
model (as the view the plugin consults) and the current running
log-prior, and returns an array. -/
def LogpdfPlugin (n : ℕ) (D : Type) : Type :=
  Params n → D → ModelView → (Fin n → ℝ) → (Fin n → ℝ)

/-- The jax `MixtureModel`: an ordered mapping of named components and
an ordered sequence of prior plugins. -/
structure MixtureModel (n : ℕ) (D : Type) where
  components : List (String × ChildModel n D)
  priors : List (LogpdfPlugin n D)
  view : ModelView

/-- Row `i` of `xp.hstack` applied to a list of (N,1) columns. -/
def hstack (cols : List (Fin n → ℝ)) : Fin n → List ℝ :=
  fun i => cols.map fun c => c i

/-- One row of jax's `logsumexp`: the log of the sum of exponentials. -/
noncomputable def logsumexp (xs : List ℝ) : ℝ :=
  Real.log (xs.map Real.exp).sum

/-- `MixtureModel.ln_likelihood_arr`: evaluate every child on its
prefixed parameter slice, `hstack` the (N,1) columns and reduce by
`logsumexp` along the component axis. -/
noncomputable def MixtureModel.ln_likelihood_arr (m : MixtureModel n D)
    (mpars : Params n) (d : D) : Fin n → ℝ :=
  fun i =>
    logsumexp (hstack (m.components.map fun nc =>
      nc.2.ln_likelihood_arr (mpars.get_prefixed nc.1) d) i)

/-- `MixtureModel.ln_prior_arr`: evaluate every child's log-prior on
its prefixed slice, `hstack` and sum along the component axis, then run
the plugin loop `lp = lp + prior.logpdf(mpars, data, self, lp)` in
declaration order. -/
def MixtureModel.ln_prior_arr (m : MixtureModel n D) (mpars : Params n)
    (d : D) : Fin n → ℝ :=
  let lp0 : Fin n → ℝ := fun i =>
    (hstack (m.components.map fun nc =>
      nc.2.ln_prior_arr (mpars.get_prefixed nc.1) d) i).sum
  m.priors.foldl (fun lp pr => fun i => lp i + pr mpars d m.view lp i) lp0

/-- The spec's wording of the plugin loop in `ln_prior_arr`: each
plugin RETURNS the updated running total, which replaces the
accumulator (instead of being added to it). -/
def MixtureModel.ln_prior_arr_specworded (m : MixtureModel n D)
    (mpars : Params n) (d : D) : Fin n → ℝ :=
  let lp0 : Fin n → ℝ := fun i =>
    (hstack (m.components.map fun nc =>
      nc.2.ln_prior_arr (mpars.get_prefixed nc.1) d) i).sum
  m.priors.foldl (fun lp pr => pr mpars d m.view lp) lp0

/-- A constant child model used in concrete instances. -/
def constChild (c : ℝ) : ChildModel 1 Unit where
  ln_likelihood_arr := fun _ _ _ => c
  ln_prior_arr := fun _ _ _ => c

/-- A two-component mixture in one declaration order. -/
noncomputable def mixAB : MixtureModel 1 Unit where
  components := [("a", constChild 0), ("b", constChild 1)]
  priors := []
  view := ⟨[]⟩

/-- The same two components declared in the other order. -/
noncomputable def mixBA : MixtureModel 1 Unit where
  components := [("b", constChild 1), ("a", constChild 0)]
  priors := []
  view := ⟨[]⟩

/-- One child with constant log-prior 1 and a single plugin whose
`logpdf` is identically 0, separating the code's additive plugin
update from the spec's replace-the-total wording. -/
def mixC4 : MixtureModel 1 Unit where
  components := [("a", constChild 1)]
  priors := [fun _ _ _ _ => fun _ => 0]
  view := ⟨[]⟩

/- ================================================================
   Mixture forward pass (`MixtureModel.__call__`,
   src/libs/jax/src/stream_ml/jax/mixture.py).  Arrays are exact here,
   so they are embedded as lists of rows over ℚ; the zero-width child
   output of shape (0,) is the empty matrix.
   ================================================================ -/

/-- A 2-D array as a list of rows. -/
abbrev Mat : Type := List (List ℚ)

/-- A prior plugin's forward entry point as called by
`MixtureModel.__call__`: it receives the running array, the raw input
batch and the model view, and returns the transformed array. -/
def FwdPlugin (I : Type) : Type := Mat → I → ModelView → Mat

/-- The forward-pass face of the mixture: the ordered child forward
functions, the ordered prior plugins, and the view handed to plugins. -/
structure MixtureFwd (I : Type) where
  components : List (I → Mat)
  priors : List (FwdPlugin I)
  view : ModelView

/-- The loop body of `__call__` that gathers child outputs: start from
the empty list, and for each output `y` in declaration order, skip it
when `y.shape == (0,)` (the empty matrix) and append it otherwise. -/
def collectOutputs (outs : List Mat) : List Mat :=
  outs.foldl (fun xs y => if y = [] then xs else xs ++ [y]) []

/-- `xp.concatenate(xs, axis=1)`: column-wise concatenation of
matrices sharing a row count, as row-wise list append. -/
def concatCols : List Mat → Mat
  | [] => []
  | [m] => m
  | m :: ms => List.zipWith (fun r s => r ++ s) m (concatCols ms)

/-- `MixtureModel.__call__`: run every child forward pass in
declaration order, drop the shape-(0,) outputs, concatenate the rest
column-wise, then fold the prior plugins over the running array. -/
def MixtureFwd.call (m : MixtureFwd I) (input : I) : Mat :=
  let x := concatCols (collectOutputs (m.components.map fun c => c input))
  m.priors.foldl (fun x pr => pr x input m.view) x

/- ================================================================
   Bounded hard-threshold prior
   (src/libs/pytorch/src/stream_ml/pytorch/prior/weight.py)
   ================================================================ -/

/-- Modelled from the spec: `within_bounds`
(stream_ml.pytorch.utils.misc is not under src/): whether a value lies
within the closed interval `[lower, upper]`. -/
def within_bounds (x lower upper : ℚ) : Bool :=
  decide (lower ≤ x) && decide (x ≤ upper)

/-- A float that is either `-inf` or an exact finite value, as produced
by the hard-threshold `logpdf` (all entries are `0` or `-inf`). -/
inductive XVal : Type where
  | negInf : XVal
  | fin : ℚ → XVal
deriving DecidableEq

/-- The `BoundedHardThreshold` prior's construction parameters. -/
structure BoundedHardThreshold where
  threshold : ℚ
  coord_name : String
  lower : ℚ
  upper : ℚ

/-- `BoundedHardThreshold.logpdf`: start from `zeros_like` of the
weight column and set `-inf` exactly on the rows where the named
coordinate is within bounds and the weight is below the threshold.
`pars` and `data` map names to columns; the model and the current
log-pdf are received but not consulted, as in the source. -/
def BoundedHardThreshold.logpdf (p : BoundedHardThreshold)
    (pars : String → Fin n → ℚ) (data : String → Fin n → ℚ)
    (model : ModelView) (current_lnpdf : Option (Fin n → XVal)) :
    Fin n → XVal :=
  fun i =>
    if within_bounds (data p.coord_name i) p.lower p.upper &&
        decide (pars "weight" i < p.threshold) then
      XVal.negInf
    else
      XVal.fin 0

/-- Overwrite the weight column of a parameter table with a constant,
used to state the threshold-minus-epsilon clauses of C6. -/
def setWeight (pars : String → Fin n → ℚ) (v : ℚ) :
    String → Fin n → ℚ :=
  fun nm => if nm = "weight" then fun _ => v else pars nm

/-- A concrete threshold prior with threshold 1 on coordinate values in
`[0, 10]`, used for the concrete C6 and C7 instances. -/
def bht0 : BoundedHardThreshold := ⟨1, "phi1", 0, 10⟩

/-- `torch.threshold(x, threshold, value)`: `x` when `x` is strictly
greater than the threshold, else `value`. -/
def torch_threshold (x T value : ℚ) : ℚ :=
  if T < x then x else value

/-- `BoundedHardThreshold.__call__`: locate the stream-weight column by
name in the model's flattened parameter-name index; where any row's
coordinate is in bounds, clone and threshold that column on the
in-bound rows only, otherwise threshold the whole column.  The (N, P)
forward array is a function of row and column indices; the masked
column assignment of the source is the elementwise conditional. -/
def BoundedHardThreshold.call (p : BoundedHardThreshold)
    (nn : Fin N → Fin P → ℚ) (data : String → Fin N → ℚ)
    (model : ModelView) : Fin N → Fin P → ℚ :=
  let im1 := model.param_names_flat.indexOf "stream_weight"
  let wh : Fin N → Bool := fun i =>
    within_bounds (data p.coord_name i) p.lower p.upper
  if ∃ i, wh i = true then
    fun i j =>
      if wh i = true ∧ (j : ℕ) = im1 then
        torch_threshold (nn i j) p.threshold 0
      else nn i j
  else
    fun i j =>
      if (j : ℕ) = im1 then torch_threshold (nn i j) p.threshold 0
      else nn i j

/-- The spec's wording of the column update: zero out values strictly
below the cutoff and pass every other value through unchanged. -/
def spec_threshold (x T : ℚ) : ℚ :=
  if x < T then 0 else x

/-- `BoundedHardThreshold.__call__` as the spec words it, with the
strictly-below-cutoff zeroing in place of `torch.threshold`. -/
def BoundedHardThreshold.call_specworded (p : BoundedHardThreshold)
    (nn : Fin N → Fin P → ℚ) (data : String → Fin N → ℚ)
    (model : ModelView) : Fin N → Fin P → ℚ :=
  let im1 := model.param_names_flat.indexOf "stream_weight"
  let wh : Fin N → Bool := fun i =>
    within_bounds (data p.coord_name i) p.lower p.upper
  if ∃ i, wh i = true then
    fun i j =>
      if wh i = true ∧ (j : ℕ) = im1 then
        spec_threshold (nn i j) p.threshold
      else nn i j
  else
    fun i j =>
      if (j : ℕ) = im1 then spec_threshold (nn i j) p.threshold
      else nn i j

/- ================================================================
   Exponential leaf model
   (src/src/stream_ml/core/builtin/_exponential.py and
   src/src/stream_ml/core/builtin/_stats/uniform.py)
   ================================================================ -/

/-- The uniform-distribution log-pdf helper
(builtin/_stats/uniform.logpdf): start from `full_like(x, nil)` and set
`-log(b - a)` exactly on the elements with `a <= x <= b`. -/
noncomputable def uniform_logpdf (x a b nil : ℝ) : ℝ :=
  if a ≤ x ∧ x ≤ b then -Real.log (b - a) else nil

/-- The errors `Exponential.ln_likelihood` can raise. -/
inductive ExpErr : Type where
  | valueError : ExpErr
  | notImplemented : ExpErr
deriving DecidableEq

/-- The `Exponential` leaf model's construction-time state.  The field
`stats_logpdf` stands for the tilted-exponential log-pdf
(stream_ml.core.builtin._stats.exponential.logpdf, which is not under
src/); it is kept abstract and is only reached on the nonzero-slope
branch, which no claim below evaluates. -/
structure ExpModel (n : ℕ) where
  coord_names : List String
  coord_bounds : String → ℝ × ℝ
  params_flatskeys : List (String × String)
  require_mask : Bool
  coord_err_names : Option (List String)
  stats_logpdf : ℝ → ℝ → ℝ → ℝ → ℝ

/-- The per-coordinate slope column: the parameter value from `mpars`
when `(k, "slope")` is among the model's declared flat keys, else the
zero column — the documented absent-slope-is-zero convention. -/
noncomputable def ExpModel.slope (M : ExpModel n)
    (mpars : String → String → Fin n → ℝ) (k : String) : Fin n → ℝ :=
  if (k, "slope") ∈ M.params_flatskeys then mpars k "slope"
  else fun _ => 0

/-- One (row, coordinate) entry of `lnliks`: on the zero-slope rows the
uniform value `-log(b - a)` with no bounds check (`array_at(lnliks,
~n0).set(-log(zero + bma))`), on the others the tilted-exponential
log-pdf. -/
noncomputable def ExpModel.lnlik_elem (M : ExpModel n)
    (mpars : String → String → Fin n → ℝ) (data : String → Fin n → ℝ)
    (k : String) (i : Fin n) : ℝ :=
  if M.slope mpars k i = 0 then
    -Real.log ((M.coord_bounds k).2 - (M.coord_bounds k).1)
  else
    M.stats_logpdf (data k i) (M.slope mpars k i)
      (M.coord_bounds k).1 (M.coord_bounds k).2

/-- The computation after the mask check: `(indicator * lnliks).sum(1)`
when there are no per-coordinate error names, else the
not-implemented error. -/
noncomputable def ExpModel.compute (M : ExpModel n)
    (mpars : String → String → Fin n → ℝ) (data : String → Fin n → ℝ)
    (ind : String → Fin n → ℝ) : Except ExpErr (Fin n → ℝ) :=
  match M.coord_err_names with
  | none =>
    Except.ok fun i =>
      (M.coord_names.map fun k => ind k i * M.lnlik_elem mpars data k i).sum
  | some _ => Except.error ExpErr.notImplemented

/-- `Exponential.ln_likelihood`: a supplied mask becomes the 0/1
indicator; with no mask, `require_mask` raises the value error,
otherwise the indicator is all ones (all points treated as
available). -/
noncomputable def ExpModel.ln_likelihood (M : ExpModel n)
    (mpars : String → String → Fin n → ℝ) (data : String → Fin n → ℝ)
    (mask : Option (String → Fin n → Bool)) : Except ExpErr (Fin n → ℝ) :=
  match mask with
  | some msk => M.compute mpars data fun k i => if msk k i then 1 else 0
  | none =>
    if M.require_mask then Except.error ExpErr.valueError
    else M.compute mpars data fun _ _ => 1

/-- A concrete exponential model on one coordinate with bounds (0, 2),
no declared slope parameter, no mask requirement. -/
noncomputable def expM0 : ExpModel 1 :=
  ⟨["x"], fun _ => (0, 2), [], false, none, fun _ _ _ _ => 0⟩

/- ================================================================
   Theorems
   ================================================================ -/

/-- C1 fails as stated: for the all-zero two-row model, the derived
`likelihood_tot` is `exp(0 + 0) = 1`, while the row-sum of the
elementwise `likelihood` is `1 + 1 = 2`. -/
theorem c1_tot_is_not_rowsum_counterexample :
    zeroModel.likelihood_tot () () none ≠
      ∑ i, zeroModel.likelihood () () none i := by
  simp [LnProbModel.likelihood_tot, LnProbModel.ln_likelihood_tot,
    LnProbModel.likelihood, zeroModel]

/-- C1 (amended): the derived variants satisfy `likelihood = exp
(ln_likelihood)` elementwise, `X_tot = sum_over_rows(X)` for each LOG
quantity `X`, and for each direct-probability quantity the `_tot`
variant is `exp` of the summed log quantity, i.e. the PRODUCT over rows
of the elementwise quantity, not the sum. -/
theorem c1_probability_protocol_consistency (M : LnProbModel n P D)
    (mp : P) (d : D) (w : Option D) :
    (∀ i, M.likelihood mp d w i = Real.exp (M.ln_likelihood mp d w i)) ∧
    M.ln_likelihood_tot mp d w = ∑ i, M.ln_likelihood mp d w i ∧
    M.ln_prior_tot mp d = ∑ i, M.ln_prior mp d i ∧
    M.ln_evidence_tot d = ∑ i, M.ln_evidence d i ∧
    M.ln_posterior_tot mp d w = ∑ i, M.ln_posterior mp d w i ∧
    M.likelihood_tot mp d w = ∏ i, M.likelihood mp d w i ∧
    M.prior_tot mp d = ∏ i, M.prior mp d i ∧
    M.evidence_tot d = ∏ i, M.evidence d i ∧
    M.posterior_tot mp d w = ∏ i, M.posterior mp d w i := by
  refine ⟨fun i => rfl, rfl, rfl, rfl, rfl, ?_, ?_, ?_, ?_⟩ <;>
    simp [LnProbModel.likelihood_tot, LnProbModel.prior_tot,
      LnProbModel.evidence_tot, LnProbModel.posterior_tot,
      LnProbModel.ln_likelihood_tot, LnProbModel.ln_prior_tot,
      LnProbModel.ln_evidence_tot, LnProbModel.ln_posterior_tot,
      LnProbModel.likelihood, LnProbModel.prior, LnProbModel.evidence,
      LnProbModel.posterior, Real.exp_sum]

/-- C2: each row of the mixture's `ln_likelihood_arr` is the
log-sum-exp, over the declared components, of the child log-likelihoods
evaluated on the shared data with the `get_prefixed` parameter slice. -/
theorem c2_mixture_lnlik_is_logsumexp (m : MixtureModel n D)
    (mpars : Params n) (d : D) (i : Fin n) :
    m.ln_likelihood_arr mpars d i =
      Real.log (m.components.map fun nc =>
        Real.exp (nc.2.ln_likelihood_arr (mpars.get_prefixed nc.1) d i)).sum := by
  simp [MixtureModel.ln_likelihood_arr, logsumexp, hstack,
    List.map_map, Function.comp_def]

/-- C3: `ln_likelihood_arr` is invariant under any permutation of the
declaration order of the components (each child still receives its own
prefixed parameter slice). -/
theorem c3_mixture_lnlik_perm_invariant (m m' : MixtureModel n D)
    (mpars : Params n) (d : D)
    (hp : List.Perm m.components m'.components) :
    m.ln_likelihood_arr mpars d = m'.ln_likelihood_arr mpars d := by
  funext i
  simp only [MixtureModel.ln_likelihood_arr, logsumexp, hstack,
    List.map_map]
  have hperm :
      List.Perm
        (m.components.map fun nc =>
          Real.exp ((nc.2.ln_likelihood_arr (mpars.get_prefixed nc.1) d ∘
            fun c => c) i))
        (m'.components.map fun nc =>
          Real.exp ((nc.2.ln_likelihood_arr (mpars.get_prefixed nc.1) d ∘
            fun c => c) i)) := by
    exact (hp.map _)
  simp only [List.map_map] at *
  exact congrArg Real.log (List.Perm.sum_eq (by
    simpa [Function.comp] using hp.map
      (fun nc : String × ChildModel n D =>
        Real.exp (nc.2.ln_likelihood_arr (mpars.get_prefixed nc.1) d i))))

/-- C3 witness: the two-component mixtures with swapped declaration
order are a permutation of one another, and their `ln_likelihood_arr`
agree. -/
theorem c3_witness :
    List.Perm mixAB.components mixBA.components ∧
      mixAB.ln_likelihood_arr ⟨[]⟩ () = mixBA.ln_likelihood_arr ⟨[]⟩ () :=
  ⟨List.Perm.swap _ _ _,
    c3_mixture_lnlik_perm_invariant mixAB mixBA ⟨[]⟩ ()
      (List.Perm.swap _ _ _)⟩

/-- C4 fails as stated: with a single zero-returning plugin the code
keeps the base total (`1 + 0 = 1`), while the spec's wording (the
plugin's return value becomes the running total) would give 0. -/
theorem c4_plugin_update_counterexample :
    mixC4.ln_prior_arr ⟨[]⟩ () ⟨0, Nat.zero_lt_one⟩ ≠
      mixC4.ln_prior_arr_specworded ⟨[]⟩ () ⟨0, Nat.zero_lt_one⟩ := by
  simp [MixtureModel.ln_prior_arr, MixtureModel.ln_prior_arr_specworded,
    mixC4, constChild, hstack]

/-- C4 (amended): `ln_prior_arr` computes the base value by SUMMING the
stacked child log-priors (not log-sum-exp) along the component axis,
then folds over the plugins in declaration order, each plugin receiving
the parameters, the data, the model view and the running total, and
RETURNING AN ADDITIVE ADJUSTMENT that is added to the running total;
the final running total is returned. -/
theorem c4_mixture_ln_prior_structure (m : MixtureModel n D)
    (mpars : Params n) (d : D) :
    m.ln_prior_arr mpars d =
      m.priors.foldl (fun lp pr => fun i => lp i + pr mpars d m.view lp i)
        (fun i => (m.components.map fun nc =>
          nc.2.ln_prior_arr (mpars.get_prefixed nc.1) d i).sum) := by
  simp [MixtureModel.ln_prior_arr, hstack, List.map_map, Function.comp_def]

/-- The gathering loop keeps exactly the non-empty outputs, in their
original order. -/
theorem collectOutputs_eq_filter (outs : List Mat) :
    collectOutputs outs = outs.filter (fun y => !y.isEmpty) := by
  have h : ∀ (l : List Mat) (acc : List Mat),
      l.foldl (fun xs y => if y = [] then xs else xs ++ [y]) acc =
        acc ++ l.filter (fun y => !y.isEmpty) := by
    intro l
    induction l with
    | nil => intro acc; simp
    | cons y t ih =>
      intro acc
      by_cases hy : y = ([] : Mat)
      · subst hy; simp [List.filter_cons, ih]
      · have hyE : y.isEmpty = false := by simpa [List.isEmpty_iff] using hy
        simp [List.foldl, hy, List.filter_cons, hyE, ih, List.append_assoc]
  simpa using h outs []

/-- C5: the mixture forward pass equals the prior-plugin fold, applied
in declaration order with the raw input and the model view, over the
column-wise concatenation of exactly the non-empty child outputs taken
in declaration order; shape-(0,) outputs are silently excluded. -/
theorem c5_forward_pass_structure (m : MixtureFwd I) (input : I) :
    m.call input =
      m.priors.foldl (fun x pr => pr x input m.view)
        (concatCols ((m.components.map fun c => c input).filter
          (fun y => !y.isEmpty))) := by
  simp [MixtureFwd.call, collectOutputs_eq_filter]

/-- C6: the hard-threshold `logpdf` is `-inf` at a row exactly when the
named coordinate is within `[lower, upper]` and the weight is strictly
below the threshold, and `0` at every other row; in particular, on an
in-bound row a weight of `T - eps` gives `-inf` and a weight of
`T + eps` gives `0` for every positive `eps`. -/
theorem c6_threshold_logpdf (p : BoundedHardThreshold)
    (pars data : String → Fin n → ℚ) (model : ModelView)
    (current_lnpdf : Option (Fin n → XVal)) (i : Fin n) :
    (p.logpdf pars data model current_lnpdf i = XVal.negInf ↔
      within_bounds (data p.coord_name i) p.lower p.upper = true ∧
        pars "weight" i < p.threshold) ∧
    (p.logpdf pars data model current_lnpdf i = XVal.fin 0 ↔
      ¬(within_bounds (data p.coord_name i) p.lower p.upper = true ∧
        pars "weight" i < p.threshold)) ∧
    (∀ eps : ℚ, 0 < eps →
      within_bounds (data p.coord_name i) p.lower p.upper = true →
      p.logpdf (setWeight pars (p.threshold - eps)) data model
          current_lnpdf i = XVal.negInf ∧
        p.logpdf (setWeight pars (p.threshold + eps)) data model
          current_lnpdf i = XVal.fin 0) := by
  have hb : ((within_bounds (data p.coord_name i) p.lower p.upper &&
      decide (pars "weight" i < p.threshold)) = true) ↔
      (within_bounds (data p.coord_name i) p.lower p.upper = true ∧
        pars "weight" i < p.threshold) := by
    simp
  refine ⟨?_, ?_, ?_⟩
  · by_cases h : within_bounds (data p.coord_name i) p.lower p.upper = true ∧
        pars "weight" i < p.threshold
    · simp [BoundedHardThreshold.logpdf, hb.mpr h, h]
    · have hf : ¬((within_bounds (data p.coord_name i) p.lower p.upper &&
          decide (pars "weight" i < p.threshold)) = true) :=
        fun hbt => h (hb.mp hbt)
      simp [BoundedHardThreshold.logpdf, hf, h]
  · by_cases h : within_bounds (data p.coord_name i) p.lower p.upper = true ∧
        pars "weight" i < p.threshold
    · simp [BoundedHardThreshold.logpdf, hb.mpr h, h]
    · have hf : ¬((within_bounds (data p.coord_name i) p.lower p.upper &&
          decide (pars "weight" i < p.threshold)) = true) :=
        fun hbt => h (hb.mp hbt)
      simp [BoundedHardThreshold.logpdf, hf, h]
  · intro eps heps hin
    constructor
    · simp [BoundedHardThreshold.logpdf, setWeight, hin,
        sub_lt_self _ heps]
    · simp [BoundedHardThreshold.logpdf, setWeight, hin,
        not_lt.mpr (le_add_of_nonneg_right heps.le)]

/-- C6 witness: on a one-row table whose coordinate value 5 is
in-bound, the theorem instantiated at `eps = 1/2` puts `-inf` at weight
`1 - 1/2` and `0` at weight `1 + 1/2`. -/
theorem c6_threshold_logpdf_witness :
    (0 < (1 : ℚ)/2) ∧
      within_bounds ((fun (_ : String) (_ : Fin 1) => (5 : ℚ)) bht0.coord_name
        ⟨0, Nat.zero_lt_one⟩) bht0.lower bht0.upper = true ∧
      bht0.logpdf (setWeight (fun _ _ => 0) (bht0.threshold - 1/2))
          (fun _ _ => 5) ⟨[]⟩ none ⟨0, Nat.zero_lt_one⟩ = XVal.negInf ∧
      bht0.logpdf (setWeight (fun _ _ => 0) (bht0.threshold + 1/2))
          (fun _ _ => 5) ⟨[]⟩ none ⟨0, Nat.zero_lt_one⟩ = XVal.fin 0 :=
  ⟨by norm_num, by decide,
    ((c6_threshold_logpdf bht0 (fun _ _ => 0) (fun _ _ => 5) ⟨[]⟩ none
      ⟨0, Nat.zero_lt_one⟩).2.2 (1/2) (by norm_num) (by decide)).1,
    ((c6_threshold_logpdf bht0 (fun _ _ => 0) (fun _ _ => 5) ⟨[]⟩ none
      ⟨0, Nat.zero_lt_one⟩).2.2 (1/2) (by norm_num) (by decide)).2⟩

/-- C7 fails as stated: on a one-row, one-column array holding exactly
the cutoff value 1, with an in-bound coordinate, `torch.threshold`
zeroes the entry (it only passes values strictly above the cutoff),
while the spec's strictly-below-cutoff rule would leave it unchanged. -/
theorem c7_threshold_at_cutoff_counterexample :
    bht0.call (fun _ _ => 1) (fun _ _ => 5) ⟨["stream_weight"]⟩
        ⟨0, Nat.zero_lt_one⟩ (⟨0, Nat.zero_lt_one⟩ : Fin 1) ≠
      bht0.call_specworded (fun _ _ => 1) (fun _ _ => 5) ⟨["stream_weight"]⟩
        ⟨0, Nat.zero_lt_one⟩ (⟨0, Nat.zero_lt_one⟩ : Fin 1) := by
  decide

/-- C7 (amended): the forward transform modifies only the stream-weight
column, located by name lookup in the model's parameter-name index:
every other entry is returned unchanged, and the stream-weight entry is
thresholded — on the in-bound rows when some row is in-bound, on every
row otherwise — where thresholding zeroes the value when it is AT OR
BELOW the cutoff and passes it through unchanged otherwise. -/
theorem c7_forward_transform_frame (p : BoundedHardThreshold)
    (nn : Fin N → Fin P → ℚ) (data : String → Fin N → ℚ)
    (model : ModelView) (i : Fin N) (j : Fin P) :
    ((j : ℕ) ≠ model.param_names_flat.indexOf "stream_weight" →
      p.call nn data model i j = nn i j) ∧
    ((j : ℕ) = model.param_names_flat.indexOf "stream_weight" →
      p.call nn data model i j =
        if (¬∃ k, within_bounds (data p.coord_name k) p.lower p.upper
              = true) ∨
            within_bounds (data p.coord_name i) p.lower p.upper = true then
          torch_threshold (nn i j) p.threshold 0
        else nn i j) ∧
    (∀ v : ℚ,
      torch_threshold v p.threshold 0 = if v ≤ p.threshold then 0 else v) := by
  refine ⟨?_, ?_, ?_⟩
  · intro hj
    by_cases hex : ∃ k, within_bounds (data p.coord_name k) p.lower p.upper
        = true
    · simp [BoundedHardThreshold.call, hex, hj]
    · simp [BoundedHardThreshold.call, hex, hj]
  · intro hj
    by_cases hex : ∃ k, within_bounds (data p.coord_name k) p.lower p.upper
        = true
    · by_cases hw : within_bounds (data p.coord_name i) p.lower p.upper
          = true
      · simp [BoundedHardThreshold.call, hex, hw, hj]
      · simp [BoundedHardThreshold.call, hex, hw, hj]
    · simp [BoundedHardThreshold.call, hex, hj]
  · intro v
    rcases le_or_lt v p.threshold with hv | hv
    · simp [torch_threshold, not_lt.mpr hv, hv]
    · simp [torch_threshold, hv, not_le.mpr hv]

/-- C7 witness: with cutoff 1, an in-bound coordinate and a 1 times 2
array whose stream-weight column (index 0) holds 1/2 and whose other
column holds 1/2, the transform zeroes the stream-weight entry and
leaves the other column unchanged. -/
theorem c7_forward_transform_frame_witness :
    ((1 : ℕ) ≠ (⟨["stream_weight"]⟩ : ModelView).param_names_flat.indexOf
        "stream_weight" ∧
      bht0.call (fun _ _ => 1/2) (fun _ _ => 5) ⟨["stream_weight"]⟩
        ⟨0, Nat.zero_lt_one⟩ (⟨1, Nat.one_lt_two⟩ : Fin 2) =
        (1 : ℚ)/2) ∧
    ((0 : ℕ) = (⟨["stream_weight"]⟩ : ModelView).param_names_flat.indexOf
        "stream_weight" ∧
      bht0.call (fun _ _ => 1/2) (fun _ _ => 5) ⟨["stream_weight"]⟩
        ⟨0, Nat.zero_lt_one⟩ (⟨0, Nat.two_pos⟩ : Fin 2) =
        if (1 : ℚ)/2 ≤ bht0.threshold then 0 else 1/2) :=
  ⟨⟨by decide,
    (c7_forward_transform_frame bht0 (fun _ _ => 1/2) (fun _ _ => 5)
        ⟨["stream_weight"]⟩ ⟨0, Nat.zero_lt_one⟩
        (⟨1, Nat.one_lt_two⟩ : Fin 2)).1 (by decide)⟩,
   ⟨by decide, by
    rw [(c7_forward_transform_frame bht0 (fun _ _ => 1/2) (fun _ _ => 5)
        ⟨["stream_weight"]⟩ ⟨0, Nat.zero_lt_one⟩
        (⟨0, Nat.two_pos⟩ : Fin 2)).2.1 (by decide),
      (c7_forward_transform_frame bht0 (fun _ _ => 1/2) (fun _ _ => 5)
        ⟨["stream_weight"]⟩ ⟨0, Nat.zero_lt_one⟩
        (⟨0, Nat.two_pos⟩ : Fin 2)).2.2]
    simp [within_bounds, bht0]⟩⟩

/-- C8: whenever the slope for coordinate `k` is exactly zero —
including the absent-parameter case, which the model treats as zero —
the per-coordinate log-likelihood contribution on an in-bound row is
`-log(b - a)`, which is exactly the uniform log-pdf there. -/
theorem c8_zero_slope_uniform_limit (M : ExpModel n)
    (mpars : String → String → Fin n → ℝ) (data : String → Fin n → ℝ)
    (k : String) (i : Fin n) (c : ℝ)
    (hm : (k, "slope") ∉ M.params_flatskeys ∨ mpars k "slope" i = 0)
    (ha : (M.coord_bounds k).1 ≤ data k i)
    (hb : data k i ≤ (M.coord_bounds k).2) :
    M.lnlik_elem mpars data k i =
        -Real.log ((M.coord_bounds k).2 - (M.coord_bounds k).1) ∧
      M.lnlik_elem mpars data k i =
        uniform_logpdf (data k i) (M.coord_bounds k).1
          (M.coord_bounds k).2 c := by
  have hs : M.slope mpars k i = 0 := by
    rcases hm with hm | hm
    · simp [ExpModel.slope, hm]
    · by_cases hmem : (k, "slope") ∈ M.params_flatskeys
      · simp [ExpModel.slope, hmem, hm]
      · simp [ExpModel.slope, hmem]
  constructor
  · simp [ExpModel.lnlik_elem, hs]
  · simp [ExpModel.lnlik_elem, hs, uniform_logpdf, ha, hb]

/-- C8 witness: with no declared slope, bounds (0, 2) and the in-bound
data value 1, the per-coordinate contribution is `-log(2 - 0)`. -/
theorem c8_zero_slope_uniform_limit_witness :
    (("x", "slope") ∉ expM0.params_flatskeys) ∧
      (expM0.coord_bounds "x").1 ≤ (1 : ℝ) ∧
      (1 : ℝ) ≤ (expM0.coord_bounds "x").2 ∧
      expM0.lnlik_elem (fun _ _ _ => 0) (fun _ _ => 1) "x"
          ⟨0, Nat.zero_lt_one⟩ =
        -Real.log ((expM0.coord_bounds "x").2 - (expM0.coord_bounds "x").1) :=
  ⟨by simp [expM0], by norm_num [expM0], by norm_num [expM0],
    (c8_zero_slope_uniform_limit expM0 (fun _ _ _ => 0) (fun _ _ => 1)
      "x" ⟨0, Nat.zero_lt_one⟩ 0 (Or.inl (by simp [expM0]))
      (by norm_num [expM0]) (by norm_num [expM0])).1⟩

/-- C9: `ln_likelihood` returns the value error exactly when
`require_mask` is set and no mask is supplied; with a mask, or with
`require_mask` unset, no value error is raised and the call proceeds
to the computation. -/
theorem c9_require_mask_value_error (M : ExpModel n)
    (mpars : String → String → Fin n → ℝ) (data : String → Fin n → ℝ)
    (mask : Option (String → Fin n → Bool)) :
    M.ln_likelihood mpars data mask = Except.error ExpErr.valueError ↔
      M.require_mask = true ∧ mask = none := by
  cases mask with
  | some msk =>
    simp only [ExpModel.ln_likelihood, ExpModel.compute]
    cases M.coord_err_names <;> simp
  | none =>
    by_cases hr : M.require_mask = true
    · simp [ExpModel.ln_likelihood, hr]
    · simp only [ExpModel.ln_likelihood, ExpModel.compute,
        Bool.not_eq_true] at hr ⊢
      cases M.coord_err_names <;> simp [hr]

/-- C10: the zero-slope branch performs no bounds check — on an
out-of-bound row it still contributes `-log(b - a)` — whereas the
uniform log-pdf helper returns the nil value outside `[a, b]` and
`-log(b - a)` exactly on `[a, b]`. -/
theorem c10_zero_slope_skips_bounds (M : ExpModel n)
    (mpars : String → String → Fin n → ℝ) (data : String → Fin n → ℝ)
    (k : String) (i : Fin n) (c : ℝ)
    (hm : (k, "slope") ∉ M.params_flatskeys ∨ mpars k "slope" i = 0)
    (hout : data k i < (M.coord_bounds k).1 ∨
      (M.coord_bounds k).2 < data k i) :
    M.lnlik_elem mpars data k i =
        -Real.log ((M.coord_bounds k).2 - (M.coord_bounds k).1) ∧
      uniform_logpdf (data k i) (M.coord_bounds k).1
          (M.coord_bounds k).2 c = c ∧
      (∀ x : ℝ, (M.coord_bounds k).1 ≤ x → x ≤ (M.coord_bounds k).2 →
        uniform_logpdf x (M.coord_bounds k).1 (M.coord_bounds k).2 c =
          -Real.log ((M.coord_bounds k).2 - (M.coord_bounds k).1)) := by
  have hs : M.slope mpars k i = 0 := by
    rcases hm with hm | hm
    · simp [ExpModel.slope, hm]
    · by_cases hmem : (k, "slope") ∈ M.params_flatskeys
      · simp [ExpModel.slope, hmem, hm]
      · simp [ExpModel.slope, hmem]
  have hnot : ¬((M.coord_bounds k).1 ≤ data k i ∧
      data k i ≤ (M.coord_bounds k).2) := by
    rcases hout with hout | hout
    · exact fun hc => absurd hc.1 (not_le.mpr hout)
    · exact fun hc => absurd hc.2 (not_le.mpr hout)
  refine ⟨by simp [ExpModel.lnlik_elem, hs], by simp [uniform_logpdf, hnot],
    fun x hx1 hx2 => by simp [uniform_logpdf, hx1, hx2]⟩

/-- C10 witness: with bounds (0, 2) and the out-of-bound data value 5,
the zero-slope contribution is still `-log(2 - 0)` while the uniform
helper returns the nil value -37 there. -/
theorem c10_zero_slope_skips_bounds_witness :
    (("x", "slope") ∉ expM0.params_flatskeys) ∧
      (expM0.coord_bounds "x").2 < (5 : ℝ) ∧
      expM0.lnlik_elem (fun _ _ _ => 0) (fun _ _ => 5) "x"
          ⟨0, Nat.zero_lt_one⟩ =
        -Real.log ((expM0.coord_bounds "x").2 -
          (expM0.coord_bounds "x").1) ∧
      uniform_logpdf ((5 : ℝ)) (expM0.coord_bounds "x").1
          (expM0.coord_bounds "x").2 (-37) = -37 :=
  ⟨by simp [expM0], by norm_num [expM0],
    (c10_zero_slope_skips_bounds expM0 (fun _ _ _ => 0) (fun _ _ => 5)
      "x" ⟨0, Nat.zero_lt_one⟩ (-37) (Or.inl (by simp [expM0]))
      (Or.inr (by norm_num [expM0]))).1,
    (c10_zero_slope_skips_bounds expM0 (fun _ _ _ => 0) (fun _ _ => 5)
      "x" ⟨0, Nat.zero_lt_one⟩ (-37) (Or.inl (by simp [expM0]))
      (Or.inr (by norm_num [expM0]))).2.1⟩

end StreamML

